import Mathlib

/-!
Verification development for the ai-service-desk-adk repository.

Python strings are shallowly embedded as lists of Unicode code points
(`PyStr := List Nat`).  The string primitives used by the code
(`str.lower`, `str.upper`, `str.strip`, `str.split`, `re.split(r"\W+", .)`,
the `in` substring test) are modelled over the ASCII ranges the code's
own keyword tables and ticket ids use.
-/

/-- Python strings as lists of code points. -/
abbrev PyStr := List Nat

/-- Converts a Lean string literal to the embedded representation. -/
def str (s : String) : PyStr := s.data.map Char.toNat

/-- Uppercases one code point (ASCII model of Python `str.upper`). -/
def upChar (c : Nat) : Nat := if 97 ≤ c ∧ c ≤ 122 then c - 32 else c

/-- Lowercases one code point (ASCII model of Python `str.lower`). -/
def lowChar (c : Nat) : Nat := if 65 ≤ c ∧ c ≤ 90 then c + 32 else c

/-- Model of Python `str.upper`. -/
def upper (s : PyStr) : PyStr := s.map upChar

/-- Model of Python `str.lower`. -/
def lower (s : PyStr) : PyStr := s.map lowChar

/-- Whitespace code points stripped by Python `str.strip` / split by `str.split()`. -/
def isSpace (c : Nat) : Bool := c = 32 || c = 9 || c = 10 || c = 13 || c = 11 || c = 12

/-- Model of Python `str.strip()`. -/
def trim (s : PyStr) : PyStr := ((s.dropWhile isSpace).reverse.dropWhile isSpace).reverse

/-- Tests whether `p` is a leading segment of `s` (helper for the substring test). -/
def leadSeg : PyStr → PyStr → Bool
  | [], _ => true
  | _ :: _, [] => false
  | c :: cs, d :: ds => c = d && leadSeg cs ds

/-- Model of the Python substring test `needle in hay`. -/
def containsSub (hay needle : PyStr) : Bool :=
  match hay with
  | [] => leadSeg needle []
  | _ :: t => leadSeg needle hay || containsSub t needle

/-- Splits a string at every separator character, keeping empty chunks,
like `re.split` with a single-character class; `acc` is the reversed
current chunk. -/
def chunksAux (p : Nat → Bool) : PyStr → PyStr → List PyStr
  | acc, [] => [acc.reverse]
  | acc, c :: cs => if p c then acc.reverse :: chunksAux p [] cs else chunksAux p (c :: acc) cs

/-- Splits a string at every character satisfying `p`, keeping empty chunks. -/
def chunksBy (p : Nat → Bool) (s : PyStr) : List PyStr := chunksAux p [] s

/-- Model of Python `str.split()` (split on whitespace runs, dropping empties). -/
def pySplitWS (s : PyStr) : List PyStr := (chunksBy isSpace s).filter (fun t => t ≠ [])

/-- Word characters of the ASCII model of the regex class `\w`. -/
def isWordChar (c : Nat) : Bool :=
  (48 ≤ c && c ≤ 57) || (65 ≤ c && c ≤ 90) || (97 ≤ c && c ≤ 122) || c = 95

/-- Model of `re.split(r"\W+", s)` up to empty chunks: splitting at every
non-word character yields the same non-empty chunks as splitting at runs. -/
def splitNW (s : PyStr) : List PyStr := chunksBy (fun c => !isWordChar c) s

/-- Model of Python `sep.join(parts)`. -/
def joinWith (sep : PyStr) : List PyStr → PyStr
  | [] => []
  | [x] => x
  | x :: y :: xs => x ++ sep ++ joinWith sep (y :: xs)

theorem upChar_idem (c : Nat) : upChar (upChar c) = upChar c := by
  unfold upChar
  by_cases h : 97 ≤ c ∧ c ≤ 122
  · simp only [if_pos h]
    have : ¬ (97 ≤ c - 32 ∧ c - 32 ≤ 122) := by omega
    simp only [if_neg this]
  · simp only [if_neg h]

theorem upper_idem (s : PyStr) : upper (upper s) = upper s := by
  unfold upper
  rw [List.map_map]
  exact List.map_congr_left (fun c _ => upChar_idem c)

theorem dropWhile_eq_self_of (p : Nat → Bool) (l : PyStr) (h : ∀ c ∈ l, p c = false) :
    l.dropWhile p = l := by
  induction l with
  | nil => rfl
  | cons c cs ih =>
    rw [List.dropWhile_cons]
    simp only [h c (List.mem_cons_self c cs)]
    rfl

theorem trim_eq_self_of (s : PyStr) (h : ∀ c ∈ s, isSpace c = false) : trim s = s := by
  unfold trim
  rw [dropWhile_eq_self_of isSpace s h]
  rw [dropWhile_eq_self_of isSpace s.reverse (fun c hc => h c (List.mem_reverse.mp hc))]
  exact List.reverse_reverse s

/-!
Embedding of `src/tools/create_ticket.py` and `src/tools/get_ticket_status.py`.

A ticket record mirrors the dict built by `create_ticket`.  The impure
inputs of the Python code — the `uuid.uuid4().hex[:8]` draw and the
current timestamp — are passed in as explicit arguments, and the tickets
file contents are passed in and returned as a list of records.
-/

/-- Ticket record, mirroring the dict literal in `create_ticket`. -/
structure Ticket where
  ticket_id : PyStr
  customer_name : PyStr
  phone : PyStr
  device : PyStr
  issue : PyStr
  priority : PyStr
  status : PyStr
  created_at : PyStr
  updated_at : PyStr
  notes : List PyStr
deriving DecidableEq

/-- Result of `create_ticket`: the success dict with its ticket, or the error dict. -/
inductive CreateResult where
  | success (ticket : Ticket)
  | error (message : PyStr)
deriving DecidableEq

/-- Model of `_validate_phone`: whitespace-normalize the phone (split + join). -/
def validatePhone (phone : PyStr) : PyStr :=
  if phone = [] then [] else joinWith (str " ") (pySplitWS phone)

/-- Ticket record built by `create_ticket` after validation passes:
the generated id is `TICKET-` followed by the uppercased uuid hex prefix,
the three required fields are stored stripped, the phone normalized. -/
def newTicketRec (customer_name phone device_sku issue priority uuidHex8 now : PyStr) : Ticket := {
  ticket_id := str "TICKET-" ++ upper uuidHex8,
  customer_name := trim customer_name,
  phone := validatePhone phone,
  device := trim device_sku,
  issue := trim issue,
  priority := priority,
  status := str "received",
  created_at := now,
  updated_at := now,
  notes := [] }

/-- Model of `create_ticket`.  `uuidHex8` stands for `uuid.uuid4().hex[:8]`
and `now` for the timestamp; `tickets` is the current contents of
`data/tickets.json`.  Returns the result dict and the new file contents
(unchanged on error).  Note the emptiness check is performed on the raw
arguments, before any stripping, exactly as in the source. -/
def createTicket (customer_name phone device_sku issue priority : PyStr)
    (uuidHex8 now : PyStr) (tickets : List Ticket) : CreateResult × List Ticket :=
  if customer_name = [] ∨ device_sku = [] ∨ issue = [] then
    (CreateResult.error (str "Missing required fields: customer_name, device_sku, and issue are required."), tickets)
  else
    (CreateResult.success (newTicketRec customer_name phone device_sku issue priority uuidHex8 now),
     tickets ++ [newTicketRec customer_name phone device_sku issue priority uuidHex8 now])

/-- Result of `get_ticket_status`: success dict with the ticket and the
optional `note` field, or the error dict. -/
inductive GetResult where
  | success (ticket : Ticket) (note : Option PyStr)
  | error (message : PyStr)
deriving DecidableEq

/-- Model of the first loop of `get_ticket_status`: first ticket whose
stored id, uppercased, equals the normalized query. -/
def findExact (norm : PyStr) : List Ticket → Option Ticket
  | [] => none
  | t :: ts => if upper t.ticket_id = norm then some t else findExact norm ts

/-- Model of the partial-match scan: first ticket whose uppercased stored id
contains the normalized query as a substring. -/
def findPartialMatch (norm : PyStr) : List Ticket → Option Ticket
  | [] => none
  | t :: ts => if containsSub (upper t.ticket_id) norm then some t else findPartialMatch norm ts

/-- Model of `get_ticket_status` over the given tickets file contents. -/
def getTicketStatus (ticket_id : PyStr) (tickets : List Ticket) : GetResult :=
  if ticket_id = [] then GetResult.error (str "ticket_id is required")
  else
    let norm := upper (trim ticket_id)
    match findExact norm tickets with
    | some t => GetResult.success t none
    | none =>
      match findPartialMatch norm tickets with
      | some t => GetResult.success t (some (str "partial_match"))
      | none => GetResult.error (str "Ticket " ++ ticket_id ++ str " not found")

/-- A lowercase-hex code point, the alphabet of `uuid.uuid4().hex`. -/
def isHexLower (c : Nat) : Bool := (48 ≤ c && c ≤ 57) || (97 ≤ c && c ≤ 102)

theorem leadSeg_self (s : PyStr) : leadSeg s s = true := by
  induction s with
  | nil => rfl
  | cons c cs ih => simp [leadSeg, ih]

theorem containsSub_self (s : PyStr) : containsSub s s = true := by
  cases s with
  | nil => rfl
  | cons c cs => simp [containsSub, leadSeg_self]

theorem findExact_eq_none (norm : PyStr) (l : List Ticket)
    (h : ∀ t ∈ l, upper t.ticket_id ≠ norm) : findExact norm l = none := by
  induction l with
  | nil => rfl
  | cons t ts ih =>
    unfold findExact
    rw [if_neg (h t (List.mem_cons_self t ts))]
    exact ih (fun t' ht' => h t' (List.mem_cons_of_mem t ht'))

theorem findExact_app_some (norm : PyStr) (a b : List Ticket) (t : Ticket)
    (ha : ∀ t' ∈ a, upper t'.ticket_id ≠ norm) (ht : upper t.ticket_id = norm) :
    findExact norm (a ++ t :: b) = some t := by
  induction a with
  | nil => simp [findExact, ht]
  | cons x xs ih =>
    rw [List.cons_append]
    unfold findExact
    rw [if_neg (ha x (List.mem_cons_self x xs))]
    exact ih (fun t' ht' => ha t' (List.mem_cons_of_mem x ht'))

theorem findPartialMatch_eq_none (norm : PyStr) (l : List Ticket)
    (h : ∀ t ∈ l, containsSub (upper t.ticket_id) norm = false) :
    findPartialMatch norm l = none := by
  induction l with
  | nil => rfl
  | cons t ts ih =>
    unfold findPartialMatch
    rw [if_neg (by simp [h t (List.mem_cons_self t ts)])]
    exact ih (fun t' ht' => h t' (List.mem_cons_of_mem t ht'))

theorem findPartialMatch_app_some (norm : PyStr) (a b : List Ticket) (t : Ticket)
    (ha : ∀ t' ∈ a, containsSub (upper t'.ticket_id) norm = false)
    (ht : containsSub (upper t.ticket_id) norm = true) :
    findPartialMatch norm (a ++ t :: b) = some t := by
  induction a with
  | nil => simp [findPartialMatch, ht]
  | cons x xs ih =>
    rw [List.cons_append]
    unfold findPartialMatch
    rw [if_neg (by simp [ha x (List.mem_cons_self x xs)])]
    exact ih (fun t' ht' => ha t' (List.mem_cons_of_mem x ht'))

theorem hex_upChar_not_space (c : Nat) (h : isHexLower c = true) :
    isSpace (upChar c) = false := by
  simp only [isHexLower, Bool.or_eq_true, Bool.and_eq_true, decide_eq_true_eq] at h
  unfold upChar isSpace
  by_cases hc : 97 ≤ c ∧ c ≤ 122
  · rw [if_pos hc]
    simp only [Bool.or_eq_false_iff, decide_eq_false_iff_not]
    omega
  · rw [if_neg hc]
    simp only [Bool.or_eq_false_iff, decide_eq_false_iff_not]
    omega

theorem generated_id_trim (u8 : PyStr) (hHex : ∀ c ∈ u8, isHexLower c = true) :
    trim (str "TICKET-" ++ upper u8) = str "TICKET-" ++ upper u8 := by
  apply trim_eq_self_of
  intro c hc
  rcases List.mem_append.mp hc with hl | hr
  · exact (by decide : ∀ c ∈ str "TICKET-", isSpace c = false) c hl
  · obtain ⟨c0, hc0, rfl⟩ := List.mem_map.mp hr
    exact hex_upChar_not_space c0 (hHex c0 hc0)

theorem generated_id_upper (u8 : PyStr) :
    upper (str "TICKET-" ++ upper u8) = str "TICKET-" ++ upper u8 := by
  unfold upper
  rw [List.map_append]
  have h1 : (str "TICKET-").map upChar = str "TICKET-" := by decide
  rw [h1]
  exact congrArg _ (upper_idem u8)

theorem generated_id_ne_nil (u8 : PyStr) : str "TICKET-" ++ upper u8 ≠ [] := by
  intro h
  exact absurd (List.append_eq_nil.mp h).1 (by decide)

/-- C3: for every non-empty ticket-id query, `get_ticket_status` returns,
as a plain success, the first stored ticket whose uppercased id equals the
trimmed-and-uppercased query; only when no stored id matches exactly does
it return the first ticket whose uppercased id contains the normalized
query as a substring, flagged with note `partial_match`; and when no id
even contains the query it returns the not-found error. -/
theorem c3_matching_policy (tid : PyStr) (tickets a b : List Ticket) (t : Ticket)
    (hne : tid ≠ []) :
    (tickets = a ++ t :: b → upper t.ticket_id = upper (trim tid) →
      (∀ t' ∈ a, upper t'.ticket_id ≠ upper (trim tid)) →
      getTicketStatus tid tickets = GetResult.success t none) ∧
    (tickets = a ++ t :: b → (∀ t' ∈ tickets, upper t'.ticket_id ≠ upper (trim tid)) →
      containsSub (upper t.ticket_id) (upper (trim tid)) = true →
      (∀ t' ∈ a, containsSub (upper t'.ticket_id) (upper (trim tid)) = false) →
      getTicketStatus tid tickets = GetResult.success t (some (str "partial_match"))) ∧
    ((∀ t' ∈ tickets, containsSub (upper t'.ticket_id) (upper (trim tid)) = false) →
      getTicketStatus tid tickets = GetResult.error (str "Ticket " ++ tid ++ str " not found")) := by
  refine ⟨?_, ?_, ?_⟩
  · intro hdec hmatch hbefore
    subst hdec
    simp only [getTicketStatus, if_neg hne, findExact_app_some _ a b t hbefore hmatch]
  · intro hdec hnoexact hcont hbefore
    subst hdec
    simp only [getTicketStatus, if_neg hne, findExact_eq_none _ _ hnoexact,
      findPartialMatch_app_some _ a b t hbefore hcont]
  · intro hnone
    have hnoexact : ∀ t' ∈ tickets, upper t'.ticket_id ≠ upper (trim tid) := by
      intro t' ht' heq
      have hc := hnone t' ht'
      rw [heq, containsSub_self] at hc
      exact absurd hc (by simp)
    simp only [getTicketStatus, if_neg hne, findExact_eq_none _ _ hnoexact,
      findPartialMatch_eq_none _ _ hnone]

/-- Stored ticket used to exercise the partial-match branch. -/
def c3Ticket : Ticket :=
  ⟨str "TICKET-ABCDEF12", str "Bob", str "1", str "D", str "x", str "normal",
   str "received", str "T0", str "T0", []⟩

/-- Witness for C3: storing `TICKET-ABCDEF12` and querying `ABCDEF` yields
that ticket flagged as a partial match. -/
theorem c3_matching_policy_witness :
    getTicketStatus (str "ABCDEF") [c3Ticket] =
      GetResult.success c3Ticket (some (str "partial_match")) := by
  exact (c3_matching_policy (str "ABCDEF") [c3Ticket] [] [] c3Ticket (by decide)).2.1
    rfl (by decide) (by decide) (by decide)

/-- C1 (amended): a ticket successfully created by `create_ticket` is
returned exactly, as a plain success with no partial-match note, by a
subsequent `get_ticket_status` on its id — provided the generated uuid
hex prefix is made of lowercase-hex characters (as `uuid4().hex` is) and
no previously stored ticket's id uppercases to the new id. -/
theorem c1_create_get_roundtrip (cn ph sku iss pri u8 now : PyStr) (ts : List Ticket)
    (tk : Ticket)
    (hHex : ∀ c ∈ u8, isHexLower c = true)
    (hFresh : ∀ t ∈ ts, upper t.ticket_id ≠ str "TICKET-" ++ upper u8)
    (h : (createTicket cn ph sku iss pri u8 now ts).1 = CreateResult.success tk) :
    getTicketStatus tk.ticket_id (createTicket cn ph sku iss pri u8 now ts).2 =
      GetResult.success tk none := by
  by_cases hc : cn = [] ∨ sku = [] ∨ iss = []
  · rw [createTicket, if_pos hc] at h
    exact absurd h (by simp)
  · rw [createTicket, if_neg hc] at h
    rw [createTicket, if_neg hc]
    have h' : CreateResult.success (newTicketRec cn ph sku iss pri u8 now) =
        CreateResult.success tk := h
    injection h' with h2
    subst h2
    show getTicketStatus (str "TICKET-" ++ upper u8)
      (ts ++ [newTicketRec cn ph sku iss pri u8 now]) = _
    have hne := generated_id_ne_nil u8
    have hfe : findExact (str "TICKET-" ++ upper u8)
        (ts ++ newTicketRec cn ph sku iss pri u8 now :: []) =
        some (newTicketRec cn ph sku iss pri u8 now) :=
      findExact_app_some _ ts [] _ hFresh (generated_id_upper u8)
    simp only [getTicketStatus, if_neg hne, generated_id_trim u8 hHex,
      generated_id_upper u8, hfe]

/-- Ticket already on file whose id collides with the generated one. -/
def c1OldTicket : Ticket :=
  ⟨str "TICKET-AAAAAAAA", str "Bob", str "1", str "D", str "x", str "normal",
   str "received", str "T0", str "T0", []⟩

/-- Counterexample for C1 as frozen: when the tickets file already holds a
different ticket with the same (normalized) id, the lookup after a
successful creation returns the earlier record, not the created one. -/
theorem c1_counterexample :
    (createTicket (str "Alice") (str "1") (str "D2") (str "screen broken") (str "normal")
        (str "aaaaaaaa") (str "T1") [c1OldTicket]).1 =
      CreateResult.success (newTicketRec (str "Alice") (str "1") (str "D2")
        (str "screen broken") (str "normal") (str "aaaaaaaa") (str "T1")) ∧
    getTicketStatus (newTicketRec (str "Alice") (str "1") (str "D2") (str "screen broken")
        (str "normal") (str "aaaaaaaa") (str "T1")).ticket_id
      (createTicket (str "Alice") (str "1") (str "D2") (str "screen broken") (str "normal")
        (str "aaaaaaaa") (str "T1") [c1OldTicket]).2 =
      GetResult.success c1OldTicket none ∧
    c1OldTicket ≠ newTicketRec (str "Alice") (str "1") (str "D2") (str "screen broken")
      (str "normal") (str "aaaaaaaa") (str "T1") := by
  decide

/-- Witness for C1: a concrete successful creation over an empty file
round-trips through `get_ticket_status`. -/
theorem c1_create_get_roundtrip_witness :
    getTicketStatus (newTicketRec (str "Alice") (str "1") (str "D2") (str "screen broken")
        (str "normal") (str "ab12cd34") (str "T1")).ticket_id
      (createTicket (str "Alice") (str "1") (str "D2") (str "screen broken") (str "normal")
        (str "ab12cd34") (str "T1") []).2 =
      GetResult.success (newTicketRec (str "Alice") (str "1") (str "D2") (str "screen broken")
        (str "normal") (str "ab12cd34") (str "T1")) none := by
  exact c1_create_get_roundtrip (str "Alice") (str "1") (str "D2") (str "screen broken")
    (str "normal") (str "ab12cd34") (str "T1") [] _ (by decide) (by decide) (by decide)

/-- Counterexample for C2 as frozen: a whitespace-only customer name is not
rejected — the ticket is created, appended, and stores an empty name. -/
theorem c2_counterexample :
    (createTicket (str "   ") (str "1") (str "SKU1") (str "broken") (str "normal")
        (str "aaaaaaaa") (str "T1") []).1 =
      CreateResult.success (newTicketRec (str "   ") (str "1") (str "SKU1") (str "broken")
        (str "normal") (str "aaaaaaaa") (str "T1")) ∧
    (createTicket (str "   ") (str "1") (str "SKU1") (str "broken") (str "normal")
        (str "aaaaaaaa") (str "T1") []).2 =
      [newTicketRec (str "   ") (str "1") (str "SKU1") (str "broken") (str "normal")
        (str "aaaaaaaa") (str "T1")] ∧
    (newTicketRec (str "   ") (str "1") (str "SKU1") (str "broken") (str "normal")
        (str "aaaaaaaa") (str "T1")).customer_name = [] := by
  decide

/-- C2 (amended): `create_ticket` errors, leaving the file unchanged, iff
one of customer_name, device_sku, issue is the empty string — the check
runs before trimming, so whitespace-only values pass and are stored
stripped; an empty phone is accepted and only whitespace-normalized. -/
theorem c2_validation (cn ph sku iss pri u8 now : PyStr) (ts : List Ticket) :
    (cn = [] ∨ sku = [] ∨ iss = [] →
      createTicket cn ph sku iss pri u8 now ts =
        (CreateResult.error (str "Missing required fields: customer_name, device_sku, and issue are required."), ts)) ∧
    (cn ≠ [] → sku ≠ [] → iss ≠ [] →
      createTicket cn ph sku iss pri u8 now ts =
        (CreateResult.success (newTicketRec cn ph sku iss pri u8 now),
         ts ++ [newTicketRec cn ph sku iss pri u8 now]) ∧
      (newTicketRec cn ph sku iss pri u8 now).customer_name = trim cn ∧
      (newTicketRec cn ph sku iss pri u8 now).phone = validatePhone ph) := by
  constructor
  · intro hc
    rw [createTicket, if_pos hc]
  · intro h1 h2 h3
    refine ⟨?_, rfl, rfl⟩
    rw [createTicket, if_neg (by tauto)]

/-- Witness for C2: an empty customer name is rejected with the file
unchanged, while a padded name with an empty phone succeeds. -/
theorem c2_validation_witness :
    createTicket [] (str "1") (str "S") (str "i") (str "n") (str "aa") (str "T") [] =
      (CreateResult.error (str "Missing required fields: customer_name, device_sku, and issue are required."), []) ∧
    createTicket (str " x ") [] (str "S") (str "i") (str "n") (str "aa") (str "T") [] =
      (CreateResult.success (newTicketRec (str " x ") [] (str "S") (str "i") (str "n")
        (str "aa") (str "T")),
       [newTicketRec (str " x ") [] (str "S") (str "i") (str "n") (str "aa") (str "T")]) := by
  refine ⟨(c2_validation [] (str "1") (str "S") (str "i") (str "n") (str "aa") (str "T") []).1
    (Or.inl rfl), ?_⟩
  exact ((c2_validation (str " x ") [] (str "S") (str "i") (str "n") (str "aa") (str "T") []).2
    (by decide) (by decide) (by decide)).1

/-!
Embedding of `_detect_intent` from `src/router_agent.py`.
-/

/-- Intents produced by the router's keyword classifier. -/
inductive Intent where
  | repair_intake
  | inventory_query
  | status_query
  | troubleshoot
  | fallback
deriving DecidableEq

/-- Keyword table of the `repair_intake` branch. -/
def kwRepair : List PyStr :=
  [str "ticket", str "repair", str "fix", str "create ticket",
   str "i need a repair", str "repair request"]

/-- Keyword table of the `inventory_query` branch. -/
def kwInventory : List PyStr :=
  [str "stock", str "price", str "how much", str "availability",
   str "in stock", str "do you have"]

/-- Keyword table of the `status_query` branch. -/
def kwStatus : List PyStr :=
  [str "status", str "ticket-", str "ticket ", str "tkt", str "where is my ticket"]

/-- Keyword table of the `troubleshoot` branch. -/
def kwTrouble : List PyStr :=
  [str "doesn\x27t work", str "not working", str "paper jam", str "overheat",
   str "no power", str "no display", str "not printing"]

/-- Model of `any(k in t for k in keywords)`. -/
def anyKeyword (ks : List PyStr) (t : PyStr) : Bool := ks.any (fun k => containsSub t k)

/-- Model of `_detect_intent`: lower-case the message, then test the four
keyword tables in the fixed source order. -/
def detectIntent (text : PyStr) : Intent :=
  if anyKeyword kwRepair (lower text) then Intent.repair_intake
  else if anyKeyword kwInventory (lower text) then Intent.inventory_query
  else if anyKeyword kwStatus (lower text) then Intent.status_query
  else if anyKeyword kwTrouble (lower text) then Intent.troubleshoot
  else Intent.fallback

/-- C5: any repair keyword in the lower-cased text forces `repair_intake`
regardless of other keyword sets; in general the first matching keyword
set in the order repair, inventory, status, troubleshoot decides, and
`fallback` is returned iff no set matches at all. -/
theorem c5_classifier (text : PyStr) :
    (anyKeyword kwRepair (lower text) = true → detectIntent text = Intent.repair_intake) ∧
    (anyKeyword kwRepair (lower text) = false → anyKeyword kwInventory (lower text) = true →
      detectIntent text = Intent.inventory_query) ∧
    (anyKeyword kwRepair (lower text) = false → anyKeyword kwInventory (lower text) = false →
      anyKeyword kwStatus (lower text) = true → detectIntent text = Intent.status_query) ∧
    (anyKeyword kwRepair (lower text) = false → anyKeyword kwInventory (lower text) = false →
      anyKeyword kwStatus (lower text) = false → anyKeyword kwTrouble (lower text) = true →
      detectIntent text = Intent.troubleshoot) ∧
    (detectIntent text = Intent.fallback ↔
      (anyKeyword kwRepair (lower text) = false ∧ anyKeyword kwInventory (lower text) = false ∧
       anyKeyword kwStatus (lower text) = false ∧ anyKeyword kwTrouble (lower text) = false)) := by
  refine ⟨?_, ?_, ?_, ?_, ?_⟩
  · intro h1
    simp [detectIntent, h1]
  · intro h1 h2
    simp [detectIntent, h1, h2]
  · intro h1 h2 h3
    simp [detectIntent, h1, h2, h3]
  · intro h1 h2 h3 h4
    simp [detectIntent, h1, h2, h3, h4]
  · constructor
    · intro h
      have hr : anyKeyword kwRepair (lower text) = false := by
        by_cases hb : anyKeyword kwRepair (lower text) = true
        · simp [detectIntent, hb] at h
        · simpa using hb
      have hi : anyKeyword kwInventory (lower text) = false := by
        by_cases hb : anyKeyword kwInventory (lower text) = true
        · simp [detectIntent, hr, hb] at h
        · simpa using hb
      have hs : anyKeyword kwStatus (lower text) = false := by
        by_cases hb : anyKeyword kwStatus (lower text) = true
        · simp [detectIntent, hr, hi, hb] at h
        · simpa using hb
      have ht : anyKeyword kwTrouble (lower text) = false := by
        by_cases hb : anyKeyword kwTrouble (lower text) = true
        · simp [detectIntent, hr, hi, hs, hb] at h
        · simpa using hb
      exact ⟨hr, hi, hs, ht⟩
    · rintro ⟨hr, hi, hs, ht⟩
      simp [detectIntent, hr, hi, hs, ht]

/-- Witness for C5: a message containing both repair and inventory keywords
classifies as `repair_intake`. -/
theorem c5_classifier_witness :
    detectIntent (str "My printer needs repair and is it in stock") = Intent.repair_intake := by
  exact (c5_classifier (str "My printer needs repair and is it in stock")).1 (by decide)

/-!
Embedding of `src/tools/inventory_lookup.py`.

An inventory record mirrors the five fields `_score_item` reads; a
missing key (`item.get(k, "")`) is the empty string.
-/

/-- Inventory record with the fields read by `_score_item`. -/
structure InvRec where
  sku : PyStr
  model : PyStr
  brand : PyStr
  category : PyStr
  description : PyStr
deriving DecidableEq

/-- Lookup result dict: success with results and count, or the error dict. -/
inductive LookupResult where
  | success (results : List InvRec) (count : Nat)
  | error (message : PyStr)
deriving DecidableEq

/-- The five lowered fields joined by single spaces, as both `_score_item`
and the fallback scan build it. -/
def joined5 (it : InvRec) : PyStr :=
  lower it.sku ++ str " " ++ lower it.model ++ str " " ++ lower it.brand ++ str " " ++
    lower it.category ++ str " " ++ lower it.description

/-- Score contribution of one term in `_score_item`: +4 sku contains, +3
model contains, +2 brand or category contains, +1 description contains,
+1 exact token of the joined string. -/
def termScore (it : InvRec) (t : PyStr) : Nat :=
  (if containsSub (lower it.sku) t then 4 else 0) +
  (if containsSub (lower it.model) t then 3 else 0) +
  (if containsSub (lower it.brand) t || containsSub (lower it.category) t then 2 else 0) +
  (if containsSub (lower it.description) t then 1 else 0) +
  (if (splitNW (joined5 it)).contains t then 1 else 0)

/-- Model of `_score_item`: the loop accumulates exactly the per-term
contributions, so the score is their sum. -/
def scoreItem (it : InvRec) (terms : List PyStr) : Nat :=
  (terms.map (termScore it)).sum

/-- The `(score, item)` pairs with positive `_score_item` score, in
storage order. -/
def positivelyScored (items : List InvRec) (terms : List PyStr) : List (Nat × InvRec) :=
  items.filterMap (fun it =>
    if 0 < scoreItem it terms then some (scoreItem it terms, it) else none)

/-- The fallback scan of `inventory_lookup`: items whose joined fields
contain some term, each given score 1. -/
def fallbackScored (items : List InvRec) (terms : List PyStr) : List (Nat × InvRec) :=
  items.filterMap (fun it =>
    if terms.any (fun t => containsSub (joined5 it) t) then some ((1 : Nat), it) else none)

/-- Stable insertion of a scored item into a descending list: skips the
strictly higher scores and lands before any equal score. -/
def insertDesc (x : Nat × InvRec) : List (Nat × InvRec) → List (Nat × InvRec)
  | [] => [x]
  | y :: ys => if y.1 ≤ x.1 then x :: y :: ys else y :: insertDesc x ys

/-- Model of `scored.sort(key=lambda x: x[0], reverse=True)`: Python's sort
is stable and `reverse=True` keeps equal keys in original order, which is
exactly what stable insertion from the right produces. -/
def stableSortDesc (l : List (Nat × InvRec)) : List (Nat × InvRec) := l.foldr insertDesc []

/-- The search terms of a query: split the stripped, lowered query at
non-word characters and drop empty chunks. -/
def termsOf (query : PyStr) : List PyStr :=
  (splitNW (lower (trim query))).filter (fun t => t ≠ [])

/-- Model of `inventory_lookup` over the given inventory file contents. -/
def inventoryLookup (query : PyStr) (items : List InvRec) (maxResults : Nat) : LookupResult :=
  if lower (trim query) = [] then LookupResult.error (str "query is empty")
  else if termsOf query = [] then LookupResult.error (str "no searchable terms found")
  else
    let scored := positivelyScored items (termsOf query)
    let scored2 := if scored = [] then fallbackScored items (termsOf query) else scored
    let results := ((stableSortDesc scored2).map (fun p => p.2)).take maxResults
    LookupResult.success results results.length

/-- Model of `inventory_lookup` with its default `max_results=10`. -/
def inventoryLookupDefault (query : PyStr) (items : List InvRec) : LookupResult :=
  inventoryLookup query items 10

/-!
Embedding of `local_route` and `_extract_ticket_id` from `src/router_agent.py`.

The session dict is a record of optional fields; Python truthiness of a
possibly-missing string is `pyFalsy`.  The tickets file contents, the
inventory contents and the create-time uuid/timestamp are threaded
through explicitly, and the output also records the new tickets file and
the list of tools actually invoked.
-/

/-- Session state fields the router reads. -/
structure Session where
  customer_name : Option PyStr
  phone : Option PyStr
  device_sku : Option PyStr
  ticket_id : Option PyStr
deriving DecidableEq

/-- The empty session dict `{}`. -/
def emptySession : Session := ⟨none, none, none, none⟩

/-- Python truthiness test `not x` for a possibly-missing string. -/
def pyFalsy : Option PyStr → Bool
  | none => true
  | some s => s.isEmpty

/-- Python `a or b` on possibly-missing strings. -/
def pyOr (a b : Option PyStr) : Option PyStr :=
  match a with
  | some s => if s.isEmpty then b else some s
  | none => b

/-- ASCII alphanumeric code point (regex class `[0-9A-Za-z]`). -/
def isAlnum (c : Nat) : Bool := (48 ≤ c && c ≤ 57) || (65 ≤ c && c ≤ 90) || (97 ≤ c && c ≤ 122)

/-- ASCII digit code point. -/
def isDigitCh (c : Nat) : Bool := 48 ≤ c && c ≤ 57

/-- Tries `TICKET[- ]?[0-9A-Za-z]{3,}` (ignorecase, greedy) anchored at the
start of `s`, returning the matched text. -/
def matchTicketAt (s : PyStr) : Option PyStr :=
  if lower (s.take 6) = str "ticket" then
    match s.drop 6 with
    | c :: rest =>
      if (c = 45 || c = 32) && 3 ≤ (rest.takeWhile isAlnum).length then
        some (s.take 6 ++ c :: rest.takeWhile isAlnum)
      else if 3 ≤ ((s.drop 6).takeWhile isAlnum).length then
        some (s.take 6 ++ (s.drop 6).takeWhile isAlnum)
      else none
    | [] => none
  else none

/-- Model of `re.search` for the first pattern: leftmost match wins. -/
def searchTicketPat : PyStr → Option PyStr
  | [] => matchTicketAt []
  | c :: t =>
    match matchTicketAt (c :: t) with
    | some m => some m
    | none => searchTicketPat t

/-- Tries `ticket\s+([0-9]{2,})` (ignorecase) anchored at the start of `s`,
returning the digits group. -/
def matchTicketNumAt (s : PyStr) : Option PyStr :=
  if lower (s.take 6) = str "ticket" then
    if 1 ≤ ((s.drop 6).takeWhile isSpace).length then
      if 2 ≤ (((s.drop 6).dropWhile isSpace).takeWhile isDigitCh).length then
        some (((s.drop 6).dropWhile isSpace).takeWhile isDigitCh)
      else none
    else none
  else none

/-- Model of `re.search` for the second pattern. -/
def searchTicketNum : PyStr → Option PyStr
  | [] => matchTicketNumAt []
  | c :: t =>
    match matchTicketNumAt (c :: t) with
    | some m => some m
    | none => searchTicketNum t

/-- Model of `"".replace(" ", "-")`. -/
def replaceSpaceDash (s : PyStr) : PyStr := s.map (fun c => if c = 32 then 45 else c)

/-- Model of `_extract_ticket_id`. -/
def extractTicketId (text : PyStr) : Option PyStr :=
  if text = [] then none
  else
    match searchTicketPat text with
    | some m => some (replaceSpaceDash (upper (trim m)))
    | none =>
      match searchTicketNum text with
      | some d => some (str "TICKET-" ++ d)
      | none => none

/-- Decimal rendering of a count, for the inventory reply f-string. -/
def natToStr (n : Nat) : PyStr := (Nat.toDigits 10 n).map Char.toNat

/-- Union of the tool result dicts the router can embed in its reply dict. -/
inductive ToolResult where
  | lookup (r : LookupResult)
  | status (r : GetResult)
  | created (r : CreateResult)
deriving DecidableEq

/-- The dict returned by `local_route`. -/
structure RouteResult where
  reply : PyStr
  tool : Option PyStr
  result : Option ToolResult
  intent : Intent
deriving DecidableEq

/-- Output of a routed call: the reply dict, the new tickets file contents,
and the names of the tools actually invoked during the call. -/
structure RouteOutput where
  res : RouteResult
  tickets : List Ticket
  calls : List PyStr
deriving DecidableEq

/-- The missing-field names computed by the `repair_intake` branch, read
from the session only. -/
def missingFields (session : Session) : List PyStr :=
  (if pyFalsy session.customer_name then [str "customer_name"] else []) ++
  (if pyFalsy session.phone then [str "phone"] else []) ++
  (if pyFalsy session.device_sku then [str "device model or SKU"] else [])

/-- Model of `", ".join(missing)`. -/
def joinComma (l : List PyStr) : PyStr := joinWith (str ", ") l

/-- Model of `local_route`. -/
def localRoute (msg : PyStr) (session : Session) (tickets : List Ticket)
    (inv : List InvRec) (u8 now : PyStr) : RouteOutput :=
  let intent := detectIntent msg
  if intent = Intent.inventory_query then
    let result := inventoryLookupDefault msg inv
    let cnt : Option Nat := match result with
      | LookupResult.success _ c => some c
      | LookupResult.error _ => none
    let reply := match cnt with
      | some c =>
        if c ≠ 0 then str "I found " ++ natToStr c ++ str " matching items."
        else str "No matching items found."
      | none => str "No matching items found."
    ⟨⟨reply, some (str "inventory_lookup"), some (ToolResult.lookup result), intent⟩,
     tickets, [str "inventory_lookup"]⟩
  else if intent = Intent.status_query then
    match pyOr (extractTicketId msg) session.ticket_id with
    | none =>
      ⟨⟨str "Please provide your ticket ID (e.g. TICKET-1234).", none, none, intent⟩,
       tickets, []⟩
    | some s =>
      if s = [] then
        ⟨⟨str "Please provide your ticket ID (e.g. TICKET-1234).", none, none, intent⟩,
         tickets, []⟩
      else
        match getTicketStatus s tickets with
        | GetResult.success tk note =>
          ⟨⟨str "Ticket " ++ tk.ticket_id ++ str ": status = " ++ tk.status ++ str ".",
            some (str "get_ticket_status"),
            some (ToolResult.status (GetResult.success tk note)), intent⟩,
           tickets, [str "get_ticket_status"]⟩
        | GetResult.error m =>
          ⟨⟨m, some (str "get_ticket_status"),
            some (ToolResult.status (GetResult.error m)), intent⟩,
           tickets, [str "get_ticket_status"]⟩
  else if intent = Intent.repair_intake then
    if missingFields session = [] then
      let pr := createTicket (session.customer_name.getD []) (session.phone.getD [])
        (session.device_sku.getD []) msg (str "normal") u8 now tickets
      let reply := match pr.1 with
        | CreateResult.success tk =>
          if tk.ticket_id ≠ [] then
            str "Ticket created (ID: " ++ tk.ticket_id ++ str "). We\x27ll notify you with updates."
          else str "Ticket created. We\x27ll notify you with updates."
        | CreateResult.error _ => str "Ticket created. We\x27ll notify you with updates."
      ⟨⟨reply, some (str "create_ticket"), some (ToolResult.created pr.1), intent⟩,
       pr.2, [str "create_ticket"]⟩
    else
      ⟨⟨str "I need the following to create a ticket: " ++ joinComma (missingFields session) ++ str ".",
        none, none, intent⟩, tickets, []⟩
  else if intent = Intent.troubleshoot then
    ⟨⟨str "I can help troubleshoot " ++ [226, 8364, 8221] ++
        str " please describe the exact symptoms, any error messages, and device model.",
      some (str "troubleshooting"), none, intent⟩, tickets, []⟩
  else
    ⟨⟨str "Sorry, I didn\x27t understand. Do you want to create a repair ticket, check product availability, or check ticket status?",
      none, none, intent⟩, tickets, []⟩

/-- C6: `route("I need a repair", {})` answers intent `repair_intake` with
tool null, result null, no store call, and a reply listing exactly
customer_name, phone, device model or SKU; in general, whenever the
message classifies as `repair_intake` and some required field is missing
from the session, the router replies with exactly the missing fields,
calls no tool, and leaves the tickets file untouched — the required
fields are read from the session only. -/
theorem c6_route_missing_info (ts : List Ticket) (inv : List InvRec) (u8 now : PyStr) :
    (localRoute (str "I need a repair") emptySession ts inv u8 now =
      ⟨⟨str "I need the following to create a ticket: customer_name, phone, device model or SKU.",
        none, none, Intent.repair_intake⟩, ts, []⟩) ∧
    (∀ (msg : PyStr) (session : Session), detectIntent msg = Intent.repair_intake →
      missingFields session ≠ [] →
      localRoute msg session ts inv u8 now =
        ⟨⟨str "I need the following to create a ticket: " ++
            joinComma (missingFields session) ++ str ".",
          none, none, Intent.repair_intake⟩, ts, []⟩) := by
  have part2 : ∀ (msg : PyStr) (session : Session),
      detectIntent msg = Intent.repair_intake → missingFields session ≠ [] →
      localRoute msg session ts inv u8 now =
        ⟨⟨str "I need the following to create a ticket: " ++
            joinComma (missingFields session) ++ str ".",
          none, none, Intent.repair_intake⟩, ts, []⟩ := by
    intro msg session h hm
    simp [localRoute, h, hm]
  refine ⟨?_, part2⟩
  have h2 := part2 (str "I need a repair") emptySession (by decide) (by decide)
  rw [h2]
  have h3 : str "I need the following to create a ticket: " ++
      joinComma (missingFields emptySession) ++ str "." =
      str "I need the following to create a ticket: customer_name, phone, device model or SKU." := by
    decide
  rw [h3]

/-- Witness for C6: with only the name present in the session, the router
asks for exactly phone and device model or SKU, calling nothing. -/
theorem c6_route_missing_info_witness :
    localRoute (str "need fix") ⟨some (str "Ann"), none, none, none⟩ [] [] (str "aa") (str "T") =
      ⟨⟨str "I need the following to create a ticket: phone, device model or SKU.",
        none, none, Intent.repair_intake⟩, [], []⟩ := by
  have h := (c6_route_missing_info [] [] (str "aa") (str "T")).2 (str "need fix")
    ⟨some (str "Ann"), none, none, none⟩ (by decide) (by decide)
  rw [h]
  decide

/-!
Embedding of `src/agents/inventory_agent.py`.

The agent's `_items` dict (Python 3.7+ insertion-ordered, unique keys) is
an association list from normalized serial to item record.  `_now_iso()`
is passed in as an explicit `now` argument.  Absence of the
`allocations`/`releases` keys (created lazily via `setdefault`) is
modelled as the empty list.  Operations that raise do so before any
mutation, so the error case of each operation leaves the store unchanged.
-/

/-- Entry appended by `allocate_device`. -/
structure Alloc where
  user : PyStr
  reason : Option PyStr
  allocated_at : PyStr
deriving DecidableEq

/-- Entry appended by `release_device`. -/
structure RelEntry where
  previous_owner : Option PyStr
  released_at : PyStr
deriving DecidableEq

/-- Stored inventory item, mirroring the dict built by `add_item`. -/
structure InvItem where
  serial : PyStr
  model : Option PyStr
  make : Option PyStr
  status : PyStr
  owner : Option PyStr
  location : Option PyStr
  tags : List PyStr
  added_at : PyStr
  last_updated : PyStr
  metadata : List (PyStr × PyStr)
  allocations : List Alloc
  releases : List RelEntry
deriving DecidableEq

/-- The agent's `_items` dict as an insertion-ordered association list. -/
abbrev InvStore := List (PyStr × InvItem)

/-- Model of `_normalize_serial`. -/
def normSerial (s : PyStr) : PyStr := upper (trim s)

/-- Dict lookup on the association list. -/
def lookupInv (k : PyStr) : InvStore → Option InvItem
  | [] => none
  | p :: ps => if p.1 = k then some p.2 else lookupInv k ps

/-- Dict update of an existing key, keeping its position. -/
def setInv (k : PyStr) (v : InvItem) : InvStore → InvStore
  | [] => []
  | p :: ps => if p.1 = k then (k, v) :: ps else p :: setInv k v ps

/-- Dict `pop` of a key. -/
def eraseInv (k : PyStr) : InvStore → InvStore
  | [] => []
  | p :: ps => if p.1 = k then ps else p :: eraseInv k ps

/-- The item dict passed to `add_item`; a missing key is `none`
(for `owner`, a key present with value `None` is also `none`, which is
indistinguishable in the stored dict). -/
structure AddInput where
  serial : Option PyStr
  model : Option PyStr
  make : Option PyStr
  status : Option PyStr
  owner : Option PyStr
  location : Option PyStr
  tags : Option (List PyStr)
  added_at : Option PyStr
  metadata : Option (List (PyStr × PyStr))
deriving DecidableEq

/-- Model of `add_item`: requires a truthy serial, rejects duplicates, and
stores the enriched item at the end of the dict.  Note `status` defaults
to `available` but a caller-supplied `status`/`owner` is stored as given. -/
def addItem (item : AddInput) (now : PyStr) (inv : InvStore) : Except PyStr (InvItem × InvStore) :=
  match item.serial with
  | none => Except.error (str "Item must contain a serial field.")
  | some s =>
    if s = [] then Except.error (str "Item must contain a serial field.")
    else
      match lookupInv (normSerial s) inv with
      | some _ => Except.error (str "Item with serial " ++ s ++ str " already exists.")
      | none =>
        let stored : InvItem :=
          ⟨normSerial s, item.model, item.make, item.status.getD (str "available"),
           item.owner, item.location, item.tags.getD [], item.added_at.getD now, now,
           item.metadata.getD [], [], []⟩
        Except.ok (stored, inv ++ [(normSerial s, stored)])

/-- The updates dict passed to `update_item`: outer `Option` is key
presence; `serial` is popped by the source and so not present here. -/
structure UpdInput where
  model : Option (Option PyStr)
  make : Option (Option PyStr)
  status : Option PyStr
  owner : Option (Option PyStr)
  location : Option (Option PyStr)
  tags : Option (List PyStr)
  added_at : Option PyStr
  metadata : Option (List (PyStr × PyStr))
deriving DecidableEq

/-- Model of `item.update(updates)` followed by the `last_updated` stamp. -/
def applyUpd (it : InvItem) (u : UpdInput) (now : PyStr) : InvItem :=
  ⟨it.serial, u.model.getD it.model, u.make.getD it.make, u.status.getD it.status,
   u.owner.getD it.owner, u.location.getD it.location, u.tags.getD it.tags,
   u.added_at.getD it.added_at, now, u.metadata.getD it.metadata,
   it.allocations, it.releases⟩

/-- Model of `update_item`. -/
def updateItem (serial : PyStr) (u : UpdInput) (now : PyStr) (inv : InvStore) :
    Except PyStr (InvItem × InvStore) :=
  match lookupInv (normSerial serial) inv with
  | none => Except.error (str "Item with serial " ++ normSerial serial ++ str " not found.")
  | some it =>
    Except.ok (applyUpd it u now, setInv (normSerial serial) (applyUpd it u now) inv)

/-- Model of `remove_item`. -/
def removeItem (serial : PyStr) (inv : InvStore) : Except PyStr (InvItem × InvStore) :=
  match lookupInv (normSerial serial) inv with
  | none => Except.error (str "Item with serial " ++ normSerial serial ++ str " not found.")
  | some it => Except.ok (it, eraseInv (normSerial serial) inv)

/-- Model of `allocate_device`: conflicts when already allocated, else sets
status/owner, appends an allocation entry and stamps the time. -/
def allocateDevice (serial user : PyStr) (reason : Option PyStr) (now : PyStr) (inv : InvStore) :
    Except PyStr (InvItem × InvStore) :=
  match lookupInv (normSerial serial) inv with
  | none => Except.error (str "Item with serial " ++ normSerial serial ++ str " not found.")
  | some it =>
    if it.status = str "allocated" then
      Except.error (str "Item " ++ normSerial serial ++ str " is already allocated.")
    else
      let it2 : InvItem := { it with
        status := str "allocated", owner := some user,
        allocations := it.allocations ++ [⟨user, reason, now⟩], last_updated := now }
      Except.ok (it2, setInv (normSerial serial) it2 inv)

/-- Model of `release_device`: unconditionally sets status available,
clears the owner, and appends a release entry recording the prior owner. -/
def releaseDevice (serial : PyStr) (now : PyStr) (inv : InvStore) : Except PyStr (InvItem × InvStore) :=
  match lookupInv (normSerial serial) inv with
  | none => Except.error (str "Item with serial " ++ normSerial serial ++ str " not found.")
  | some it =>
    let it2 : InvItem := { it with
      status := str "available", owner := none,
      releases := it.releases ++ [⟨it.owner, now⟩], last_updated := now }
    Except.ok (it2, setInv (normSerial serial) it2 inv)

/-- One mutating call on the agent, with its timestamp where the source
reads the clock. -/
inductive InvOp where
  | add (item : AddInput) (now : PyStr)
  | update (serial : PyStr) (u : UpdInput) (now : PyStr)
  | remove (serial : PyStr)
  | allocate (serial user : PyStr) (reason : Option PyStr) (now : PyStr)
  | release (serial : PyStr) (now : PyStr)
deriving DecidableEq

/-- Applies one operation; a raising call leaves the store unchanged
(every raise in the source happens before any mutation). -/
def stepInv (inv : InvStore) : InvOp → InvStore
  | InvOp.add item now =>
    match addItem item now inv with
    | Except.ok (_, inv2) => inv2
    | Except.error _ => inv
  | InvOp.update s u now =>
    match updateItem s u now inv with
    | Except.ok (_, inv2) => inv2
    | Except.error _ => inv
  | InvOp.remove s =>
    match removeItem s inv with
    | Except.ok (_, inv2) => inv2
    | Except.error _ => inv
  | InvOp.allocate s u r now =>
    match allocateDevice s u r now inv with
    | Except.ok (_, inv2) => inv2
    | Except.error _ => inv
  | InvOp.release s now =>
    match releaseDevice s now inv with
    | Except.ok (_, inv2) => inv2
    | Except.error _ => inv

/-- The store reached by a sequence of operations from the empty store. -/
def runInv (ops : List InvOp) : InvStore := ops.foldl stepInv []

/-- Well-formedness of one stored entry: the item's `serial` field equals
its dict key, and the claimed status/owner relationship holds. -/
def itemOk (p : PyStr × InvItem) : Prop :=
  p.2.serial = p.1 ∧
  (p.2.status = str "allocated" → p.2.owner ≠ none) ∧
  (p.2.status = str "available" → p.2.owner = none)

/-- Store invariant: dict keys are unique and every entry is well-formed. -/
def invOk (inv : InvStore) : Prop :=
  (inv.map Prod.fst).Nodup ∧ ∀ p ∈ inv, itemOk p

/-- Operations whose inputs do not inject a `status` or `owner` key
through `add_item`/`update_item`. -/
def cleanOp : InvOp → Bool
  | InvOp.add item _ => item.status = none && item.owner = none
  | InvOp.update _ u _ => u.status = none && u.owner = none
  | _ => true

theorem lookupInv_none_not_key (k : PyStr) (inv : InvStore)
    (h : lookupInv k inv = none) : k ∉ inv.map Prod.fst := by
  induction inv with
  | nil => simp
  | cons p ps ih =>
    unfold lookupInv at h
    by_cases hp : p.1 = k
    · rw [if_pos hp] at h; exact absurd h (by simp)
    · rw [if_neg hp] at h
      simp only [List.map_cons, List.mem_cons]
      rintro (hk | hk)
      · exact hp hk.symm
      · exact ih h hk

theorem lookupInv_mem (k : PyStr) (inv : InvStore) (it : InvItem)
    (h : lookupInv k inv = some it) : (k, it) ∈ inv := by
  induction inv with
  | nil => exact absurd h (by simp [lookupInv])
  | cons p ps ih =>
    unfold lookupInv at h
    by_cases hp : p.1 = k
    · rw [if_pos hp] at h
      have : p.2 = it := Option.some.inj h
      have hpk : p = (k, it) := by
        cases p
        simp only at hp this
        rw [hp, this]
      rw [← hpk]
      exact List.mem_cons_self p ps
    · rw [if_neg hp] at h
      exact List.mem_cons_of_mem p (ih h)

theorem mem_setInv (k : PyStr) (v : InvItem) (inv : InvStore) (p : PyStr × InvItem)
    (h : p ∈ setInv k v inv) : p = (k, v) ∨ p ∈ inv := by
  induction inv with
  | nil => exact absurd h (by simp [setInv])
  | cons q qs ih =>
    unfold setInv at h
    by_cases hq : q.1 = k
    · rw [if_pos hq] at h
      rcases List.mem_cons.mp h with h1 | h1
      · exact Or.inl h1
      · exact Or.inr (List.mem_cons_of_mem q h1)
    · rw [if_neg hq] at h
      rcases List.mem_cons.mp h with h1 | h1
      · exact Or.inr (h1 ▸ List.mem_cons_self q qs)
      · rcases ih h1 with h2 | h2
        · exact Or.inl h2
        · exact Or.inr (List.mem_cons_of_mem q h2)

theorem keys_setInv (k : PyStr) (v : InvItem) (inv : InvStore) :
    (setInv k v inv).map Prod.fst = inv.map Prod.fst := by
  induction inv with
  | nil => rfl
  | cons q qs ih =>
    unfold setInv
    by_cases hq : q.1 = k
    · rw [if_pos hq]
      simp only [List.map_cons]
      rw [hq]
    · rw [if_neg hq]
      simp only [List.map_cons, ih]

theorem mem_eraseInv (k : PyStr) (inv : InvStore) (p : PyStr × InvItem)
    (h : p ∈ eraseInv k inv) : p ∈ inv := by
  induction inv with
  | nil => exact absurd h (by simp [eraseInv])
  | cons q qs ih =>
    unfold eraseInv at h
    by_cases hq : q.1 = k
    · rw [if_pos hq] at h
      exact List.mem_cons_of_mem q h
    · rw [if_neg hq] at h
      rcases List.mem_cons.mp h with h1 | h1
      · exact h1 ▸ List.mem_cons_self q qs
      · exact List.mem_cons_of_mem q (ih h1)

theorem eraseInv_sublist (k : PyStr) (inv : InvStore) : List.Sublist (eraseInv k inv) inv := by
  induction inv with
  | nil => exact List.Sublist.refl []
  | cons q qs ih =>
    unfold eraseInv
    by_cases hq : q.1 = k
    · rw [if_pos hq]
      exact List.sublist_cons_self q qs
    · rw [if_neg hq]
      exact List.Sublist.cons₂ q ih

theorem lookupInv_setInv (k : PyStr) (v : InvItem) (inv : InvStore) (it : InvItem)
    (h : lookupInv k inv = some it) : lookupInv k (setInv k v inv) = some v := by
  induction inv with
  | nil => exact absurd h (by simp [lookupInv])
  | cons q qs ih =>
    unfold setInv
    by_cases hq : q.1 = k
    · rw [if_pos hq]
      simp [lookupInv]
    · rw [if_neg hq]
      unfold lookupInv
      rw [if_neg hq]
      unfold lookupInv at h
      rw [if_neg hq] at h
      exact ih h

theorem setInv_invOk (k : PyStr) (v : InvItem) (inv : InvStore)
    (hv : itemOk (k, v)) (h : invOk inv) : invOk (setInv k v inv) := by
  constructor
  · rw [keys_setInv]
    exact h.1
  · intro p hp
    rcases mem_setInv k v inv p hp with h1 | h1
    · rw [h1]; exact hv
    · exact h.2 p h1

theorem stepInv_preserves (inv : InvStore) (op : InvOp)
    (hop : cleanOp op = true) (h : invOk inv) : invOk (stepInv inv op) := by
  cases op with
  | add item now =>
    simp only [cleanOp, Bool.and_eq_true, decide_eq_true_eq] at hop
    simp only [stepInv]
    cases hser : item.serial with
    | none => simp only [addItem, hser]; exact h
    | some s =>
      simp only [addItem, hser]
      by_cases hs : s = []
      · rw [if_pos hs]; exact h
      · rw [if_neg hs]
        cases hlk : lookupInv (normSerial s) inv with
        | some it => exact h
        | none =>
          simp only
          constructor
          · rw [List.map_append]
            rw [List.nodup_append]
            refine ⟨h.1, by simp, ?_⟩
            intro a ha hmem
            have : a = normSerial s := by simpa using hmem
            exact lookupInv_none_not_key _ inv hlk (this ▸ ha)
          · intro p hp
            rcases List.mem_append.mp hp with h1 | h1
            · exact h.2 p h1
            · have hps : p = (normSerial s,
                ⟨normSerial s, item.model, item.make, item.status.getD (str "available"),
                 item.owner, item.location, item.tags.getD [], item.added_at.getD now, now,
                 item.metadata.getD [], [], []⟩) := by simpa using h1
              rw [hps]
              refine ⟨rfl, ?_, ?_⟩
              · intro hst
                have hst2 : item.status.getD (str "available") = str "allocated" := hst
                rw [hop.1] at hst2
                exact absurd hst2 (by decide)
              · intro _
                exact hop.2
  | update s u now =>
    simp only [cleanOp, Bool.and_eq_true, decide_eq_true_eq] at hop
    simp only [stepInv]
    cases hlk : lookupInv (normSerial s) inv with
    | none => simp only [updateItem, hlk]; exact h
    | some it =>
      simp only [updateItem, hlk]
      have hio : itemOk (normSerial s, it) := h.2 _ (lookupInv_mem _ _ _ hlk)
      apply setInv_invOk _ _ _ _ h
      refine ⟨hio.1, ?_, ?_⟩
      · intro hst
        simp only [applyUpd, hop.1, hop.2, Option.getD_none] at hst ⊢
        exact hio.2.1 hst
      · intro hst
        simp only [applyUpd, hop.1, hop.2, Option.getD_none] at hst ⊢
        exact hio.2.2 hst
  | remove s =>
    simp only [stepInv]
    cases hlk : lookupInv (normSerial s) inv with
    | none => simp only [removeItem, hlk]; exact h
    | some it =>
      simp only [removeItem, hlk]
      constructor
      · exact List.Nodup.sublist (List.Sublist.map Prod.fst (eraseInv_sublist _ inv)) h.1
      · intro p hp
        exact h.2 p (mem_eraseInv _ inv p hp)
  | allocate s user reason now =>
    simp only [stepInv]
    cases hlk : lookupInv (normSerial s) inv with
    | none => simp only [allocateDevice, hlk]; exact h
    | some it =>
      simp only [allocateDevice, hlk]
      by_cases hst : it.status = str "allocated"
      · rw [if_pos hst]; exact h
      · rw [if_neg hst]
        simp only
        have hio : itemOk (normSerial s, it) := h.2 _ (lookupInv_mem _ _ _ hlk)
        apply setInv_invOk _ _ _ _ h
        refine ⟨hio.1, ?_, ?_⟩
        · intro _
          simp
        · intro hcon
          have hcon2 : str "allocated" = str "available" := hcon
          exact absurd hcon2 (by decide)
  | release s now =>
    simp only [stepInv]
    cases hlk : lookupInv (normSerial s) inv with
    | none => simp only [releaseDevice, hlk]; exact h
    | some it =>
      simp only [releaseDevice, hlk]
      have hio : itemOk (normSerial s, it) := h.2 _ (lookupInv_mem _ _ _ hlk)
      apply setInv_invOk _ _ _ _ h
      refine ⟨hio.1, ?_, ?_⟩
      · intro hcon
        have hcon2 : str "available" = str "allocated" := hcon
        exact absurd hcon2 (by decide)
      · intro _
        rfl

theorem runInv_invOk (ops : List InvOp) (h : ∀ op ∈ ops, cleanOp op = true) :
    invOk (runInv ops) := by
  suffices hgen : ∀ (l : List InvOp) (inv : InvStore),
      (∀ op ∈ l, cleanOp op = true) → invOk inv → invOk (l.foldl stepInv inv) by
    refine hgen ops [] h ⟨List.nodup_nil, ?_⟩
    intro p hp
    cases hp
  intro l
  induction l with
  | nil => intro inv _ hi; exact hi
  | cons op rest ih =>
    intro inv hc hi
    exact ih _ (fun o ho => hc o (List.mem_cons_of_mem _ ho))
      (stepInv_preserves inv op (hc op (List.mem_cons_self _ _)) hi)

/-- C4 (amended): every store reachable from the empty store by add,
update, remove, allocate and release operations whose add/update inputs
carry no `status` or `owner` key satisfies the invariant: serials are
unique across the collection, an allocated item has a non-null owner, and
an available item has a null owner. -/
theorem c4_reachable_invariant (ops : List InvOp) (h : ∀ op ∈ ops, cleanOp op = true) :
    ((runInv ops).map (fun p => p.2.serial)).Nodup ∧
    ∀ p ∈ runInv ops,
      (p.2.status = str "allocated" → p.2.owner ≠ none) ∧
      (p.2.status = str "available" → p.2.owner = none) := by
  have hi := runInv_invOk ops h
  constructor
  · have hmap : (runInv ops).map (fun p => p.2.serial) = (runInv ops).map Prod.fst :=
      List.map_congr_left (fun p hp => (hi.2 p hp).1)
    rw [hmap]
    exact hi.1
  · intro p hp
    exact ⟨(hi.2 p hp).2.1, (hi.2 p hp).2.2⟩

/-- add/allocate/release history used to exercise the invariant. -/
def c4Ops : List InvOp :=
  [InvOp.add ⟨some (str "SN1"), some (str "XPS"), none, none, none, none, none, none, none⟩ (str "T0"),
   InvOp.add ⟨some (str "SN2"), none, none, none, none, none, none, none, none⟩ (str "T1"),
   InvOp.allocate (str "SN1") (str "alice") none (str "T2"),
   InvOp.release (str "SN2") (str "T3")]

/-- Witness for C4: a concrete clean history satisfies the invariant. -/
theorem c4_reachable_invariant_witness :
    ((runInv c4Ops).map (fun p => p.2.serial)).Nodup ∧
    ∀ p ∈ runInv c4Ops,
      (p.2.status = str "allocated" → p.2.owner ≠ none) ∧
      (p.2.status = str "available" → p.2.owner = none) := by
  exact c4_reachable_invariant c4Ops (by decide)

/-- Operation violating the frozen claim: `add_item` stores a
caller-supplied `status` unchecked. -/
def c4BadOp : InvOp :=
  InvOp.add ⟨some (str "S1"), none, none, some (str "allocated"), none, none, none, none, none⟩
    (str "T0")

/-- Counterexample for C4 as frozen: a single `add_item` whose input dict
carries `status="allocated"` and no owner reaches a state with an
allocated item whose owner is null. -/
theorem c4_counterexample :
    lookupInv (str "S1") (runInv [c4BadOp]) =
      some ⟨str "S1", none, none, str "allocated", none, none, [], str "T0", str "T0", [], [], []⟩ ∧
    ¬ (∀ p ∈ runInv [c4BadOp], p.2.status = str "allocated" → p.2.owner ≠ none) := by
  decide

/-- The item record `release_device` writes back: status available, owner
cleared, one release entry appended recording the prior owner, timestamp
updated. -/
def releasedItem (it : InvItem) (now : PyStr) : InvItem :=
  { it with
    status := str "available", owner := none,
    releases := it.releases ++ [⟨it.owner, now⟩], last_updated := now }

/-- C10: `release_device` on any existing serial succeeds whatever the
current status — no conflict check — setting status available and owner
null and appending one release entry whose `previous_owner` is the prior
owner value (null when the item was not allocated); releasing again
appends a second entry with `previous_owner = null`. -/
theorem c10_release_semantics (inv : InvStore) (serial now : PyStr) (it : InvItem)
    (h : lookupInv (normSerial serial) inv = some it) :
    releaseDevice serial now inv =
      Except.ok (releasedItem it now, setInv (normSerial serial) (releasedItem it now) inv) ∧
    (releasedItem it now).status = str "available" ∧
    (releasedItem it now).owner = none ∧
    (releasedItem it now).releases = it.releases ++ [⟨it.owner, now⟩] ∧
    (∀ now2 : PyStr, ∃ it2 inv2,
      releaseDevice serial now2 (setInv (normSerial serial) (releasedItem it now) inv) =
        Except.ok (it2, inv2) ∧
      it2.status = str "available" ∧ it2.owner = none ∧
      it2.releases = it.releases ++ [⟨it.owner, now⟩, ⟨none, now2⟩]) := by
  refine ⟨by simp only [releaseDevice, h]; rfl, rfl, rfl, rfl, ?_⟩
  intro now2
  have hl2 := lookupInv_setInv (normSerial serial) (releasedItem it now) inv it h
  refine ⟨_, _, by simp only [releaseDevice, hl2]; rfl, rfl, rfl, ?_⟩
  simp [releasedItem]

/-- Item already available (never allocated) used to exercise a release. -/
def c10Item : InvItem :=
  ⟨str "SN1", some (str "XPS"), none, str "available", none, none, [], str "T0", str "T0",
   [], [], []⟩

/-- Witness for C10: releasing an available, never-allocated item succeeds
and appends a release entry with a null `previous_owner`. -/
theorem c10_release_semantics_witness :
    releaseDevice (str "sn1") (str "T1") [(str "SN1", c10Item)] =
      Except.ok (releasedItem c10Item (str "T1"),
        setInv (normSerial (str "sn1")) (releasedItem c10Item (str "T1"))
          [(str "SN1", c10Item)]) ∧
    (releasedItem c10Item (str "T1")).releases = [⟨none, str "T1"⟩] := by
  refine ⟨(c10_release_semantics [(str "SN1", c10Item)] (str "sn1") (str "T1") c10Item
    (by decide)).1, by decide⟩

/-!
Model for the atomic-write pattern shared by `_atomic_write_tickets`
(`create_ticket.py`) and `InventoryAgent.save`: `mkstemp` in the target
directory, write and (for tickets) fsync the payload into the temp file,
`os.replace` onto the target; on any exception the temp file is removed
and the exception re-raised.  The target path and the temp file are the
observable file-system state; `writeOk`/`replaceOk` say whether the
payload write resp. the atomic replace raises.  The trace lists the
states visible after each primitive step.
-/

/-- Observable file-system state: committed target contents and the temp
file (absent, created-empty, or fully written). -/
structure AtomicFS (α : Type) where
  target : α
  temp : Option (Option α)
deriving DecidableEq

/-- Model of the temp-write-replace sequence with its cleanup handler.
Returns the propagated outcome, the final state, and the trace of
intermediate states. -/
def atomicWrite {α : Type} (d : α) (writeOk replaceOk : Bool) (fs0 : AtomicFS α) :
    Except PyStr Unit × AtomicFS α × List (AtomicFS α) :=
  let s1 : AtomicFS α := ⟨fs0.target, some none⟩
  if writeOk = false then
    (Except.error (str "write failed"), ⟨fs0.target, none⟩, [s1, ⟨fs0.target, none⟩])
  else
    let s2 : AtomicFS α := ⟨fs0.target, some (some d)⟩
    if replaceOk then
      (Except.ok (), ⟨d, none⟩, [s1, s2, ⟨d, none⟩])
    else
      (Except.error (str "replace failed"), ⟨fs0.target, none⟩, [s1, s2, ⟨fs0.target, none⟩])

/-- C7: if the atomic replace fails, the error is propagated (not
swallowed), the temp file is removed, the target still holds the prior
contents — and at every intermediate step of the write the target held
the prior contents, so no partially written file is ever visible there. -/
theorem c7_atomic_replace_failure {α : Type} (d : α) (writeOk : Bool) (fs0 : AtomicFS α) :
    (∃ msg, (atomicWrite d writeOk false fs0).1 = Except.error msg) ∧
    (atomicWrite d writeOk false fs0).2.1.target = fs0.target ∧
    (atomicWrite d writeOk false fs0).2.1.temp = none ∧
    (∀ s ∈ (atomicWrite d writeOk false fs0).2.2, s.target = fs0.target) := by
  cases writeOk with
  | false =>
    refine ⟨⟨str "write failed", rfl⟩, rfl, rfl, ?_⟩
    intro s hs
    simp [atomicWrite] at hs
    rcases hs with rfl | rfl
    · rfl
    · rfl
  | true =>
    refine ⟨⟨str "replace failed", rfl⟩, rfl, rfl, ?_⟩
    intro s hs
    simp [atomicWrite] at hs
    rcases hs with rfl | rfl | rfl
    · rfl
    · rfl
    · rfl

/-!
Aliasing model for C8.  `InventoryAgent.get_item` returns `dict(item)` — a
fresh top-level dict whose values are the same references as the stored
item's; a nested list such as `tags` is therefore shared between the
store and the returned copy.  The heap holds the nested lists, addressed
by index; an item dict stores a reference into it.
-/

/-- Heap of nested Python list objects. -/
structure PyHeap where
  lists : List (List PyStr)
deriving DecidableEq

/-- Top-level item dict: scalar fields by value, nested `tags` list by
reference into the heap. -/
structure ItemDict where
  serial : PyStr
  status : PyStr
  owner : Option PyStr
  tagsRef : Nat
deriving DecidableEq

/-- Dereferences a nested list. -/
def heapRead (h : PyHeap) (r : Nat) : List PyStr := h.lists.getD r []

/-- Model of `copy["tags"].append(v)`: in-place mutation of the shared
list object. -/
def heapAppend (h : PyHeap) (r : Nat) (v : PyStr) : PyHeap :=
  ⟨h.lists.set r (h.lists.getD r [] ++ [v])⟩

/-- Model of `get_item`'s `dict(item)`: a fresh top-level dict that copies
every value — including the `tags` reference, not the list it points to. -/
def getItemCopy (it : ItemDict) : ItemDict := ⟨it.serial, it.status, it.owner, it.tagsRef⟩

/-- Stored item whose `tags` list lives at heap address 0. -/
def c8Store : ItemDict := ⟨str "SN1", str "available", none, 0⟩

/-- Heap holding that item's tags list. -/
def c8Heap : PyHeap := ⟨[[str "laptop"]]⟩

/-- C8 failing input: the copy returned by `get_item` is equal to the
stored item (and a second copy is equal to the first), but appending to
the copy's `tags` changes what the store — and any later `get_item` —
sees, because `dict(item)` shares the nested list. -/
theorem c8_shallow_copy_shares_tags :
    getItemCopy c8Store = c8Store ∧
    getItemCopy (getItemCopy c8Store) = getItemCopy c8Store ∧
    heapRead c8Heap c8Store.tagsRef = [str "laptop"] ∧
    heapRead (heapAppend c8Heap (getItemCopy c8Store).tagsRef (str "x")) c8Store.tagsRef =
      [str "laptop", str "x"] := by
  decide

theorem chunksAux_chars (p : Nat → Bool) (s : PyStr) :
    ∀ (acc : PyStr), (∀ c ∈ acc, p c = false) →
      ∀ t ∈ chunksAux p acc s, ∀ c ∈ t, p c = false := by
  induction s with
  | nil =>
    intro acc hacc t ht c hc
    have : t = acc.reverse := by simpa [chunksAux] using ht
    subst this
    exact hacc c (List.mem_reverse.mp hc)
  | cons d ds ih =>
    intro acc hacc t ht c hc
    by_cases hd : p d = true
    · have heq : chunksAux p acc (d :: ds) = acc.reverse :: chunksAux p [] ds := by
        simp [chunksAux, hd]
      rw [heq] at ht
      rcases List.mem_cons.mp ht with rfl | ht2
      · exact hacc c (List.mem_reverse.mp hc)
      · exact ih [] (by intro x hx; cases hx) t ht2 c hc
    · have hd2 : p d = false := by simpa using hd
      have heq : chunksAux p acc (d :: ds) = chunksAux p (d :: acc) ds := by
        simp [chunksAux, hd2]
      rw [heq] at ht
      refine ih (d :: acc) ?_ t ht c hc
      intro x hx
      rcases List.mem_cons.mp hx with rfl | hx2
      · exact hd2
      · exact hacc x hx2

theorem termsOf_wordChars (q : PyStr) :
    ∀ t ∈ termsOf q, t ≠ [] ∧ ∀ c ∈ t, isWordChar c = true := by
  intro t ht
  unfold termsOf at ht
  have hmem := List.mem_filter.mp ht
  refine ⟨by simpa using hmem.2, ?_⟩
  intro c hc
  have := chunksAux_chars (fun c => !isWordChar c) (lower (trim q)) [] (by intro x hx; cases hx)
    t hmem.1 c hc
  simpa using this

theorem leadSeg_cut (c0 : Nat) (v : PyStr) : ∀ (t u : PyStr), c0 ∉ t →
    leadSeg t (u ++ c0 :: v) = true → leadSeg t u = true := by
  intro t
  induction t with
  | nil => intro u _ _; rfl
  | cons y ys ih =>
    intro u hc0 h
    cases u with
    | nil =>
      rw [List.nil_append] at h
      simp only [leadSeg, Bool.and_eq_true, decide_eq_true_eq] at h
      have : c0 ∈ y :: ys := by
        rw [← h.1]
        exact List.mem_cons_self y ys
      exact absurd this hc0
    | cons x xs =>
      rw [List.cons_append] at h
      simp only [leadSeg, Bool.and_eq_true, decide_eq_true_eq] at h ⊢
      exact ⟨h.1, ih xs (fun hm => hc0 (List.mem_cons_of_mem y hm)) h.2⟩

theorem containsSub_sep (c0 : Nat) : ∀ (u v t : PyStr), t ≠ [] → c0 ∉ t →
    containsSub (u ++ c0 :: v) t = true →
    containsSub u t = true ∨ containsSub v t = true := by
  intro u
  induction u with
  | nil =>
    intro v t htne hc0 h
    rw [List.nil_append] at h
    simp only [containsSub, Bool.or_eq_true] at h
    rcases h with h | h
    · cases t with
      | nil => exact absurd rfl htne
      | cons y ys =>
        simp only [leadSeg, Bool.and_eq_true, decide_eq_true_eq] at h
        have : c0 ∈ y :: ys := by
          rw [← h.1]
          exact List.mem_cons_self y ys
        exact absurd this hc0
    · exact Or.inr h
  | cons x xs ih =>
    intro v t htne hc0 h
    rw [List.cons_append] at h
    simp only [containsSub, Bool.or_eq_true] at h ⊢
    rcases h with h | h
    · exact Or.inl (Or.inl (leadSeg_cut c0 v t (x :: xs) hc0 h))
    · rcases ih v t htne hc0 h with h2 | h2
      · exact Or.inl (Or.inr h2)
      · exact Or.inr h2

theorem joined5_eq (it : InvRec) : joined5 it =
    lower it.sku ++ 32 :: (lower it.model ++ 32 :: (lower it.brand ++ 32 ::
      (lower it.category ++ 32 :: lower it.description))) := by
  have hsp : str " " = [32] := by decide
  simp [joined5, hsp, List.append_assoc]

theorem score_pos_of_contains (it : InvRec) (t : PyStr) (htne : t ≠ [])
    (hw : ∀ c ∈ t, isWordChar c = true)
    (h : containsSub (joined5 it) t = true) : 1 ≤ termScore it t := by
  have h32 : (32 : Nat) ∉ t := fun hm => absurd (hw 32 hm) (by decide)
  rw [joined5_eq] at h
  rcases containsSub_sep 32 _ _ t htne h32 h with h1 | h1
  · simp only [termScore, h1, if_true]
    omega
  · rcases containsSub_sep 32 _ _ t htne h32 h1 with h2 | h2
    · simp only [termScore, h2, if_true]
      omega
    · rcases containsSub_sep 32 _ _ t htne h32 h2 with h3 | h3
      · simp only [termScore, h3, Bool.true_or, if_true]
        omega
      · rcases containsSub_sep 32 _ _ t htne h32 h3 with h4 | h4
        · simp only [termScore, h4, Bool.or_true, if_true]
          omega
        · simp only [termScore, h4, if_true]
          omega

theorem scoreItem_pos_of_term (it : InvRec) (terms : List PyStr) (t : PyStr)
    (hmem : t ∈ terms) (hpos : 1 ≤ termScore it t) : 0 < scoreItem it terms := by
  unfold scoreItem
  have hin : termScore it t ∈ terms.map (termScore it) := List.mem_map_of_mem _ hmem
  have := List.single_le_sum (l := terms.map (termScore it)) (by intro x _; exact Nat.zero_le x)
    _ hin
  omega

theorem fallback_nil_of_positives_nil (items : List InvRec) (q : PyStr)
    (hpos : positivelyScored items (termsOf q) = []) :
    fallbackScored items (termsOf q) = [] := by
  have hz : ∀ it ∈ items, ¬ 0 < scoreItem it (termsOf q) := by
    intro it hit hlt
    have := List.filterMap_eq_nil_iff.mp hpos it hit
    rw [if_pos hlt] at this
    exact absurd this (by simp)
  apply List.filterMap_eq_nil_iff.mpr
  intro it hit
  by_cases hc : (termsOf q).any (fun t => containsSub (joined5 it) t) = true
  · obtain ⟨t, htm, hct⟩ := List.any_eq_true.mp hc
    obtain ⟨htne, hwc⟩ := termsOf_wordChars q t htm
    exact absurd (scoreItem_pos_of_term it (termsOf q) t htm
      (score_pos_of_contains it t htne hwc hct)) (hz it hit)
  · rw [if_neg hc]

theorem mem_insertDesc (x z : Nat × InvRec) (l : List (Nat × InvRec))
    (h : z ∈ insertDesc x l) : z = x ∨ z ∈ l := by
  induction l with
  | nil => simpa [insertDesc] using h
  | cons y ys ih =>
    unfold insertDesc at h
    by_cases hc : y.1 ≤ x.1
    · rw [if_pos hc] at h
      rcases List.mem_cons.mp h with rfl | h2
      · exact Or.inl rfl
      · exact Or.inr h2
    · rw [if_neg hc] at h
      rcases List.mem_cons.mp h with rfl | h2
      · exact Or.inr (List.mem_cons_self z ys)
      · rcases ih h2 with h3 | h3
        · exact Or.inl h3
        · exact Or.inr (List.mem_cons_of_mem y h3)

theorem insertDesc_sorted (x : Nat × InvRec) (l : List (Nat × InvRec))
    (h : l.Pairwise (fun a b => b.1 ≤ a.1)) :
    (insertDesc x l).Pairwise (fun a b => b.1 ≤ a.1) := by
  induction l with
  | nil => simp [insertDesc]
  | cons y ys ih =>
    unfold insertDesc
    by_cases hc : y.1 ≤ x.1
    · rw [if_pos hc]
      rw [List.pairwise_cons]
      refine ⟨?_, h⟩
      intro z hz
      rcases List.mem_cons.mp hz with rfl | hz2
      · exact hc
      · exact le_trans ((List.pairwise_cons.mp h).1 z hz2) hc
    · rw [if_neg hc]
      rw [List.pairwise_cons] at h ⊢
      refine ⟨?_, ih h.2⟩
      intro z hz
      rcases mem_insertDesc x z ys hz with rfl | hz2
      · omega
      · exact h.1 z hz2

theorem insertDesc_perm (x : Nat × InvRec) (l : List (Nat × InvRec)) :
    (insertDesc x l).Perm (x :: l) := by
  induction l with
  | nil => exact List.Perm.refl _
  | cons y ys ih =>
    unfold insertDesc
    by_cases hc : y.1 ≤ x.1
    · rw [if_pos hc]
    · rw [if_neg hc]
      exact List.Perm.trans (List.Perm.cons y ih) (List.Perm.swap x y ys)

theorem stableSortDesc_sorted (l : List (Nat × InvRec)) :
    (stableSortDesc l).Pairwise (fun a b => b.1 ≤ a.1) := by
  induction l with
  | nil => simp [stableSortDesc]
  | cons x xs ih => exact insertDesc_sorted x _ ih

theorem stableSortDesc_perm (l : List (Nat × InvRec)) : (stableSortDesc l).Perm l := by
  induction l with
  | nil => exact List.Perm.refl _
  | cons x xs ih =>
    exact List.Perm.trans (insertDesc_perm x (stableSortDesc xs)) (List.Perm.cons x ih)

theorem insertDesc_filter_score (x : Nat × InvRec) (l : List (Nat × InvRec)) (s : Nat) :
    (insertDesc x l).filter (fun p => p.1 = s) =
      if x.1 = s then x :: l.filter (fun p => p.1 = s)
      else l.filter (fun p => p.1 = s) := by
  induction l with
  | nil =>
    by_cases hx : x.1 = s <;> simp [insertDesc, List.filter_cons, hx]
  | cons y ys ih =>
    unfold insertDesc
    by_cases hc : y.1 ≤ x.1
    · rw [if_pos hc]
      by_cases hx : x.1 = s <;> by_cases hy : y.1 = s <;>
        simp [List.filter_cons, hx, hy]
    · rw [if_neg hc]
      by_cases hx : x.1 = s <;> by_cases hy : y.1 = s
      · omega
      · simp [List.filter_cons, hx, hy, ih]
      · simp [List.filter_cons, hx, hy, ih]
      · simp [List.filter_cons, hx, hy, ih]

theorem stableSortDesc_filter_score (l : List (Nat × InvRec)) (s : Nat) :
    (stableSortDesc l).filter (fun p => p.1 = s) = l.filter (fun p => p.1 = s) := by
  induction l with
  | nil => rfl
  | cons x xs ih =>
    have hstep : stableSortDesc (x :: xs) = insertDesc x (stableSortDesc xs) := rfl
    rw [hstep, insertDesc_filter_score]
    by_cases hx : x.1 = s <;> simp [List.filter_cons, hx, ih]

/-- C9: for a query with at least one searchable term, `inventory_lookup`
succeeds and returns exactly the positively `_score_item`-scored items,
sorted by descending score with equal scores kept in storage order
(sorted + per-score filter unchanged + permutation characterize the
stable descending sort), truncated to `max_results`, with `count` equal
to the length of the returned list; the substring fallback never fires,
because a term contained in the joined fields already scores positively. -/
theorem c9_lookup (q : PyStr) (items : List InvRec) (maxR : Nat)
    (h : termsOf q ≠ []) :
    inventoryLookup q items maxR =
      LookupResult.success
        (((stableSortDesc (positivelyScored items (termsOf q))).map (fun p => p.2)).take maxR)
        ((((stableSortDesc (positivelyScored items (termsOf q))).map (fun p => p.2)).take maxR).length) ∧
    (stableSortDesc (positivelyScored items (termsOf q))).Pairwise (fun a b => b.1 ≤ a.1) ∧
    (stableSortDesc (positivelyScored items (termsOf q))).Perm
      (positivelyScored items (termsOf q)) ∧
    (∀ s : Nat, (stableSortDesc (positivelyScored items (termsOf q))).filter (fun p => p.1 = s) =
      (positivelyScored items (termsOf q)).filter (fun p => p.1 = s)) ∧
    (((stableSortDesc (positivelyScored items (termsOf q))).map (fun p => p.2)).take maxR).length
      ≤ maxR ∧
    inventoryLookupDefault q items = inventoryLookup q items 10 := by
  have hq : ¬ (lower (trim q) = []) := by
    intro hq0
    apply h
    unfold termsOf
    rw [hq0]
    rfl
  have hsc : (if positivelyScored items (termsOf q) = []
      then fallbackScored items (termsOf q)
      else positivelyScored items (termsOf q)) = positivelyScored items (termsOf q) := by
    by_cases hp : positivelyScored items (termsOf q) = []
    · rw [if_pos hp, fallback_nil_of_positives_nil items q hp, hp]
    · rw [if_neg hp]
  refine ⟨?_, stableSortDesc_sorted _, stableSortDesc_perm _,
    fun s => stableSortDesc_filter_score _ s, ?_, rfl⟩
  · simp only [inventoryLookup, if_neg hq, if_neg h, hsc]
  · rw [List.length_take]
    exact min_le_left _ _

/-- Inventory record matched by the witness query. -/
def c9ItemA : InvRec :=
  ⟨str "XPS13-9310", str "Dell XPS 13 9310", str "Dell", str "laptop", str "Intel i7 16GB"⟩

/-- Inventory record not matched by the witness query. -/
def c9ItemB : InvRec :=
  ⟨str "TP-T14", str "Lenovo ThinkPad T14", str "Lenovo", str "laptop", str "Ryzen 7"⟩

/-- Witness for C9: the query `dell xps` over a two-item inventory returns
exactly the matching item with count 1. -/
theorem c9_lookup_witness :
    inventoryLookup (str "dell xps") [c9ItemA, c9ItemB] 10 =
      LookupResult.success [c9ItemA] 1 := by
  have h := (c9_lookup (str "dell xps") [c9ItemA, c9ItemB] 10 (by decide)).1
  rw [h]
  decide

/-- Counterexample for C9 as frozen: not every non-empty query yields the
scored-results success — a punctuation-only query is non-empty yet splits
into no searchable terms and returns the no-terms error dict, and a
whitespace-only query is non-empty yet strips to empty and returns the
empty-query error dict. -/
theorem c9_counterexample :
    (str "!!!") ≠ [] ∧
    inventoryLookup (str "!!!") [c9ItemA, c9ItemB] 10 =
      LookupResult.error (str "no searchable terms found") ∧
    (str "   ") ≠ [] ∧
    inventoryLookup (str "   ") [c9ItemA, c9ItemB] 10 =
      LookupResult.error (str "query is empty") := by
  decide
